import Mathlib

/-!
Shallow embedding of the HIV Defense Chess game engine: the React component
in hiv-chess-rules.md.  React useState cells become fields of a `GameState`
record; the state-setter calls of the source become functional record
updates.  JS `Set` objects keyed by "row,col" strings become duplicate-free
lists of coordinate pairs (insertion keeps order and ignores duplicates,
matching Set semantics).  JS numbers used for energy and the turn counter
become `Int`.
-/

/-- JS `s.charAt(n)`, on the two-character piece codes used by the engine.
Out-of-range access yields a character matching no piece code, as the empty
string the JS version returns matches no switch case. -/
def charAt (s : String) (n : Nat) : Char :=
  s.toList.getD n '?'

/-- The two players, the JS strings "white" and "black". -/
inductive Player where
  | white
  | black
deriving DecidableEq, Repr

/-- JS `currentPlayer.charAt(0)`. -/
def playerChar : Player → Char
  | .white => 'w'
  | .black => 'b'

/-- JS `currentPlayer === 'white' ? 'black' : 'white'`. -/
def togglePlayer : Player → Player
  | .white => .black
  | .black => .white

/-- The `energyPoints` object `{ white, black }`. -/
structure EnergyPoints where
  white : Int
  black : Int
deriving DecidableEq, Repr

/-- JS `energyPoints[currentPlayer]`. -/
def energyOf (e : EnergyPoints) : Player → Int
  | .white => e.white
  | .black => e.black

/-- JS `{ ...energyPoints, [currentPlayer]: v }`. -/
def setEnergy (e : EnergyPoints) : Player → Int → EnergyPoints
  | .white, v => { e with white := v }
  | .black, v => { e with black := v }

/-- The board: an 8x8 array of piece codes or null. -/
abbrev Board := List (List (Option String))

/-- JS `board[row][col]`. -/
def boardGet (b : Board) (row col : Nat) : Option String :=
  (b.getD row []).getD col none

/-- JS `newBoard[row][col] = v` on a freshly copied board. -/
def boardSet (b : Board) (row col : Nat) (v : Option String) : Board :=
  b.set row ((b.getD row []).set col v)

/-- The INITIAL_BOARD constant. -/
def INITIAL_BOARD : Board :=
  [[some "br", some "bn", some "bb", some "bq", some "bk", some "bb", some "bn", some "br"],
   [some "bp", some "bp", some "bp", some "bp", some "bp", some "bp", some "bp", some "bp"],
   List.replicate 8 none,
   List.replicate 8 none,
   List.replicate 8 none,
   List.replicate 8 none,
   [some "wp", some "wp", some "wp", some "wp", some "wp", some "wp", some "wp", some "wp"],
   [some "wr", some "wn", some "wb", some "wq", some "wk", some "wb", some "wn", some "wr"]]

/-- JS `new Set([...old, key])`: insertion order is kept and a key already
present is not added again. -/
def insertSet (s : List (Nat × Nat)) (x : Nat × Nat) : List (Nat × Nat) :=
  if x ∈ s then s else s ++ [x]

/-- The whole component state: one field per useState cell, in source order. -/
structure GameState where
  board : Board
  selectedPiece : Option (Nat × Nat × String)
  energyPoints : EnergyPoints
  currentPlayer : Player
  hiddenPieces : List (Nat × Nat)
  taggedPieces : List (Nat × Nat)
  mutatedPieces : List (Nat × Nat)
  turnCount : Int
  selectedAbility : Option String
deriving DecidableEq, Repr

/-- The initial useState values. -/
def initState : GameState :=
  { board := INITIAL_BOARD
    selectedPiece := none
    energyPoints := { white := 10, black := 10 }
    currentPlayer := .white
    hiddenPieces := []
    taggedPieces := []
    mutatedPieces := []
    turnCount := 1
    selectedAbility := none }

/-- The `isValidMove(from, to, piece)` function.  Squares are (row, col)
pairs; `dx`/`dy` are `Math.abs` column/row deltas, compared as JS numbers
(so as integers, also against the signed `1 * direction` of the pawn case). -/
def isValidMove (fromSq toSq : Nat × Nat) (piece : String) : Bool :=
  let dx : Int := ((toSq.2 : Int) - (fromSq.2 : Int)).natAbs
  let dy : Int := ((toSq.1 : Int) - (fromSq.1 : Int)).natAbs
  match charAt piece 1 with
  | 'k' => decide (dx ≤ 1) && decide (dy ≤ 1)
  | 'q' => dx == dy || dx == 0 || dy == 0
  | 'b' => dx == dy
  | 'n' => (dx == 2 && dy == 1) || (dx == 1 && dy == 2)
  | 'r' => dx == 0 || dy == 0
  | 'p' =>
    let direction : Int := if charAt piece 0 == 'w' then -1 else 1
    dx == 0 && (dy == 1 * direction ||
      ((fromSq.1 : Int) == (if direction == 1 then 1 else 6) && dy == 2 * direction))
  | _ => false

/-- The cost table object inside `getAbilityCost`. -/
def abilityCosts : List (String × Int) :=
  [("stealth_mode", 5),
   ("mutation_burst", 7),
   ("surface_shift", 4),
   ("protein_synthesis", 6),
   ("tag_piece", 3)]

/-- JS `costs[ability] || 1`.  No table entry is 0, so falsiness of the
looked-up value coincides with absence from the table. -/
def getAbilityCost (ability : String) : Int :=
  match abilityCosts.lookup ability with
  | some c => c
  | none => 1

/-- The `activateAbility(ability, piece, position)` function.  The `piece`
argument is unused in the source body as well.  The energy debit reads the
captured (pre-effect) `energyPoints`, which the effect branches never touch. -/
def activateAbility (st : GameState) (ability : String) (piece : String)
    (pos : Nat × Nat) : GameState :=
  let _ := piece
  let cost := getAbilityCost ability
  if energyOf st.energyPoints st.currentPlayer ≥ cost then
    let st1 :=
      if ability == "stealth_mode" then
        { st with hiddenPieces := insertSet st.hiddenPieces pos }
      else if ability == "mutation_burst" then
        { st with mutatedPieces := insertSet st.mutatedPieces pos }
      else if ability == "tag_piece" then
        { st with taggedPieces := insertSet st.taggedPieces pos }
      else st
    let newPool := energyOf st.energyPoints st.currentPlayer - cost
    { st1 with energyPoints := setEnergy st.energyPoints st.currentPlayer newPool }
  else st

/-- The `handleSquareClick(row, col)` function. -/
def handleSquareClick (st : GameState) (row col : Nat) : GameState :=
  let piece := boardGet st.board row col
  match st.selectedAbility with
  | some ability =>
    match piece with
    | some p =>
      if charAt p 0 == playerChar st.currentPlayer then
        let st1 := activateAbility st ability p (row, col)
        { st1 with selectedAbility := none }
      else st
    | none => st
  | none =>
    match st.selectedPiece with
    | none =>
      match piece with
      | some p =>
        let pieceColor : Player := if charAt p 0 == 'w' then .white else .black
        if pieceColor = st.currentPlayer then
          { st with selectedPiece := some (row, col, p) }
        else st
      | none => st
    | some sel =>
      if isValidMove (sel.1, sel.2.1) (row, col) sel.2.2 then
        { st with
            board := boardSet (boardSet st.board row col (some sel.2.2))
              sel.1 sel.2.1 none
            currentPlayer := togglePlayer st.currentPlayer
            turnCount := st.turnCount + 1
            selectedPiece := none }
      else { st with selectedPiece := none }

/-- A sequence of ability activations, applied left to right. -/
def applyAbilities (st : GameState) (acts : List (String × String × (Nat × Nat))) :
    GameState :=
  acts.foldl (fun s a => activateAbility s a.1 a.2.1 a.2.2) st

/-- Modelled from the spec (section 4.2 class table), for comparison against
the source's isValidMove: core, complex, coordinator, vector and factory as
in the table; particle is a forward-only single step in the faction's
forward direction (white toward lower rows, black toward higher rows), or a
double step from the faction's starting rank (row 6 for white, row 1 for
black). -/
def specLegalMove (fromSq toSq : Nat × Nat) (piece : String) : Bool :=
  let dx : Int := ((toSq.2 : Int) - (fromSq.2 : Int)).natAbs
  let dy : Int := ((toSq.1 : Int) - (fromSq.1 : Int)).natAbs
  match charAt piece 1 with
  | 'k' => decide (dx ≤ 1) && decide (dy ≤ 1)
  | 'q' => dx == dy || dx == 0 || dy == 0
  | 'b' => dx == dy
  | 'n' => (dx == 2 && dy == 1) || (dx == 1 && dy == 2)
  | 'r' => dx == 0 || dy == 0
  | 'p' =>
    let forward : Int := if charAt piece 0 == 'w' then -1 else 1
    let delta : Int := (toSq.1 : Int) - (fromSq.1 : Int)
    dx == 0 && (delta == forward ||
      ((fromSq.1 : Int) == (if charAt piece 0 == 'w' then 6 else 1)
        && delta == 2 * forward))
  | _ => false

/-- A state with the white factory piece at (6,0) selected, about to move. -/
def moveSt : GameState := { initState with selectedPiece := some (6, 0, "wr") }

/-- A state with the white vector piece at (7,1) selected. -/
def knightSt : GameState := { initState with selectedPiece := some (7, 1, "wn") }

/-- A state whose white pool is 4, below the cost 5 of stealth_mode. -/
def lowEnergySt : GameState :=
  { initState with energyPoints := { white := 4, black := 10 } }

/-- A state where black is to act with a pool of 20, enough for two
mutation_burst activations. -/
def mutateSt : GameState :=
  { initState with currentPlayer := .black
                   energyPoints := { white := 10, black := 20 } }

/-- The state after black's first mutation_burst on the vector at (0,1). -/
def mutateSt1 : GameState := activateAbility mutateSt "mutation_burst" "bn" (0, 1)

/-- The state after a second mutation_burst on the same piece. -/
def mutateSt2 : GameState := activateAbility mutateSt1 "mutation_burst" "bn" (0, 1)

/-- The spec's tag scenario: the defending vector piece at (6,1), the
pathogen particle at (1,1) concealed, and the tag ability armed; white to
act. -/
def tagScenarioSt : GameState :=
  { initState with board := boardSet INITIAL_BOARD 6 1 (some "wn")
                   hiddenPieces := [(1, 1)]
                   selectedAbility := some "tag_piece" }

/-- A state with one concealed square, (2,3), adjacent to the actor used in
the reveal scenario. -/
def concealedSt : GameState := { initState with hiddenPieces := [(2, 3)] }

/-- A state with the tag ability armed and no piece selected. -/
def armedAbilitySt : GameState := { initState with selectedAbility := some "tag_piece" }

/-- A state with the white core piece at (7,4) selected. -/
def kingSelectedSt : GameState := { initState with selectedPiece := some (7, 4, "wk") }

/-- A sample sequence of ability activations. -/
def demoActs : List (String × String × (Nat × Nat)) :=
  [("stealth_mode", "bp", (1, 1)), ("tag_piece", "wn", (1, 1))]

/-- The projections of `activateAbility` that no branch ever modifies. -/
theorem activateAbility_frame (st : GameState) (a p : String) (pos : Nat × Nat) :
    (activateAbility st a p pos).board = st.board ∧
    (activateAbility st a p pos).selectedPiece = st.selectedPiece ∧
    (activateAbility st a p pos).currentPlayer = st.currentPlayer ∧
    (activateAbility st a p pos).turnCount = st.turnCount ∧
    (activateAbility st a p pos).selectedAbility = st.selectedAbility := by
  unfold activateAbility
  dsimp only
  split
  · split
    · exact ⟨rfl, rfl, rfl, rfl, rfl⟩
    · split
      · exact ⟨rfl, rfl, rfl, rfl, rfl⟩
      · split
        · exact ⟨rfl, rfl, rfl, rfl, rfl⟩
        · exact ⟨rfl, rfl, rfl, rfl, rfl⟩
  · exact ⟨rfl, rfl, rfl, rfl, rfl⟩

/-- The energy pools produced by `activateAbility`: the guarded debit of the
resolved cost from the acting faction's pool, the state's pools otherwise. -/
theorem activateAbility_energyPoints (st : GameState) (a p : String) (pos : Nat × Nat) :
    (activateAbility st a p pos).energyPoints =
      if energyOf st.energyPoints st.currentPlayer ≥ getAbilityCost a then
        setEnergy st.energyPoints st.currentPlayer
          (energyOf st.energyPoints st.currentPlayer - getAbilityCost a)
      else st.energyPoints := by
  unfold activateAbility
  dsimp only
  split <;> rfl

/-- An activation whose cost exceeds the acting faction's pool is a complete
no-op: the guard fails and the state is returned untouched. -/
theorem activateAbility_insufficient (st : GameState) (a p : String) (pos : Nat × Nat)
    (h : energyOf st.energyPoints st.currentPlayer < getAbilityCost a) :
    activateAbility st a p pos = st := by
  unfold activateAbility
  dsimp only
  rw [if_neg (not_le.mpr h)]

/-- Reading a pool right after writing it. -/
theorem energyOf_setEnergy (e : EnergyPoints) (pl : Player) (v : Int) :
    energyOf (setEnergy e pl v) pl = v := by
  cases pl <;> rfl

/-- One activation keeps both pools nonnegative. -/
theorem activateAbility_nonneg_step (st : GameState) (a p : String) (pos : Nat × Nat)
    (hw : 0 ≤ st.energyPoints.white) (hb : 0 ≤ st.energyPoints.black) :
    0 ≤ (activateAbility st a p pos).energyPoints.white ∧
    0 ≤ (activateAbility st a p pos).energyPoints.black := by
  rw [activateAbility_energyPoints]
  by_cases h : energyOf st.energyPoints st.currentPlayer ≥ getAbilityCost a
  · rw [if_pos h]
    cases hcp : st.currentPlayer <;>
      simp only [setEnergy, energyOf, hcp] at h ⊢ <;>
      exact ⟨by omega, by omega⟩
  · rw [if_neg h]
    exact ⟨hw, hb⟩

/-- Reading an in-bounds list cell right after setting it. -/
theorem getD_set_self {α : Type} (l : List α) (n : Nat) (a d : α) (h : n < l.length) :
    (l.set n a).getD n d = a := by
  induction l generalizing n with
  | nil => simp at h
  | cons x xs ih =>
    cases n with
    | zero => rfl
    | succ m =>
      simp only [List.set_cons_succ, List.getD_cons_succ]
      exact ih m (by simpa using h)

/-- Writing a piece to an in-bounds square and then clearing that same
square leaves it empty: the move-execution write order of the source. -/
theorem boardGet_double_set (b : Board) (r c : Nat) (v : Option String)
    (hr : r < b.length) (hc : c < (b.getD r []).length) :
    boardGet (boardSet (boardSet b r c v) r c none) r c = none := by
  unfold boardGet boardSet
  have hr1 : r < (b.set r ((b.getD r []).set c v)).length := by
    simpa using hr
  rw [getD_set_self _ _ _ _ hr1]
  rw [getD_set_self _ _ _ _ hr]
  rw [getD_set_self _ _ _ _ (by simpa using hc)]

/-- Claim C1: the spec's section 4.2 class table and the source's
isValidMove disagree on the particle class.  The code rejects the white
particle's forward single step from (6,1) to (5,1), which the table allows
(the absolute row delta is compared against the negative 1 * direction), and
accepts the black particle's backward step from (2,1) to (1,1), which the
table forbids. -/
theorem particle_move_divergence :
    isValidMove (6, 1) (5, 1) "wp" = false ∧
    specLegalMove (6, 1) (5, 1) "wp" = true ∧
    isValidMove (2, 1) (1, 1) "bp" = true ∧
    specLegalMove (2, 1) (1, 1) "bp" = false := by
  decide

/-- Claim C4: an activation whose cost is strictly above the acting
faction's pool changes nothing at all: the returned state is the input
state, pool, board and status sets included. -/
theorem insufficient_energy_noop (st : GameState) (ability piece : String)
    (pos : Nat × Nat)
    (h : energyOf st.energyPoints st.currentPlayer < getAbilityCost ability) :
    activateAbility st ability piece pos = st :=
  activateAbility_insufficient st ability piece pos h

/-- Witness for claim C4, the spec's own scenario: white's pool at 4 and
stealth_mode costing 5, the activation is a no-op and the pool stays 4. -/
theorem insufficient_energy_noop_witness :
    activateAbility lowEnergySt "stealth_mode" "wp" (6, 0) = lowEnergySt ∧
    lowEnergySt.energyPoints.white = 4 :=
  ⟨insufficient_energy_noop lowEnergySt "stealth_mode" "wp" (6, 0) (by decide),
   by decide⟩

/-- Claim C5: the source implements no mutation cooldown.  A second
mutation_burst on the same piece is not rejected: it debits the cost again
(black's pool goes 20 to 13 to 6) and changes the state, while the
mutated-set stays the same singleton. -/
theorem mutation_no_cooldown :
    mutateSt1.energyPoints.black = 13 ∧
    mutateSt1.mutatedPieces = [(0, 1)] ∧
    mutateSt2.energyPoints.black = 6 ∧
    mutateSt2.mutatedPieces = mutateSt1.mutatedPieces ∧
    mutateSt2 ≠ mutateSt1 := by
  decide

/-- Claim C6: the spec's tag scenario is impossible in the code.  With the
tag ability armed and white to act, clicking the pathogen's concealed
particle at (1,1) hits the own-piece guard of handleSquareClick: the state
is returned untouched, so the tagged-set does not gain (1,1) and no energy
is debited. -/
theorem tag_enemy_rejected :
    boardGet tagScenarioSt.board 6 1 = some "wn" ∧
    boardGet tagScenarioSt.board 1 1 = some "bp" ∧
    tagScenarioSt.hiddenPieces = [(1, 1)] ∧
    handleSquareClick tagScenarioSt 1 1 = tagScenarioSt := by
  decide

/-- Claim C7: no reveal-class ability is implemented.  Activating
reveal_hidden next to the concealed square (2,3) leaves the concealed-set
untouched and debits the default cost 1 (white's pool goes 10 to 9). -/
theorem reveal_no_effect :
    (activateAbility concealedSt "reveal_hidden" "wn" (2, 2)).hiddenPieces = [(2, 3)] ∧
    (activateAbility concealedSt "reveal_hidden" "wn" (2, 2)).energyPoints.white = 9 := by
  decide

/-- Claim C9 counterexample: with the tag ability armed, clicking an empty
square is a rejected (invalid-target) action, yet the pending-ability
selection is not cleared: the whole state, armed ability included, is
returned intact. -/
theorem ability_selection_not_cleared :
    armedAbilitySt.selectedAbility = some "tag_piece" ∧
    boardGet armedAbilitySt.board 3 3 = none ∧
    handleSquareClick armedAbilitySt 3 3 = armedAbilitySt := by
  decide

/-- Claim C10 counterexample: committing the null move of the selected
white core piece at (7,4) does not leave the board unchanged: the
origin-clearing write lands on the same square as the destination write, so
the piece is deleted, while the turn still advances and the faction still
toggles. -/
theorem null_move_deletes_piece :
    boardGet kingSelectedSt.board 7 4 = some "wk" ∧
    boardGet (handleSquareClick kingSelectedSt 7 4).board 7 4 = none ∧
    (handleSquareClick kingSelectedSt 7 4).turnCount = kingSelectedSt.turnCount + 1 ∧
    (handleSquareClick kingSelectedSt 7 4).currentPlayer = Player.black := by
  decide

/-- Claim C2: a committed geometrically legal move increments the turn
counter by exactly 1 and toggles the active faction; a geometrically
illegal (rejected) move and an ability-armed click, whatever activation it
triggers, leave both unchanged. -/
theorem move_commit_turn_behavior :
    (∀ st sr sc p row col, st.selectedAbility = none →
      st.selectedPiece = some (sr, sc, p) →
      isValidMove (sr, sc) (row, col) p = true →
      (handleSquareClick st row col).turnCount = st.turnCount + 1 ∧
      (handleSquareClick st row col).currentPlayer = togglePlayer st.currentPlayer) ∧
    (∀ st sr sc p row col, st.selectedAbility = none →
      st.selectedPiece = some (sr, sc, p) →
      isValidMove (sr, sc) (row, col) p = false →
      (handleSquareClick st row col).turnCount = st.turnCount ∧
      (handleSquareClick st row col).currentPlayer = st.currentPlayer) ∧
    (∀ st a row col, st.selectedAbility = some a →
      (handleSquareClick st row col).turnCount = st.turnCount ∧
      (handleSquareClick st row col).currentPlayer = st.currentPlayer) := by
  refine ⟨?_, ?_, ?_⟩
  · intro st sr sc p row col hab hsel hval
    simp [handleSquareClick, hab, hsel, hval]
  · intro st sr sc p row col hab hsel hval
    simp [handleSquareClick, hab, hsel, hval]
  · intro st a row col hab
    rcases hbg : boardGet st.board row col with _ | p
    · simp [handleSquareClick, hab, hbg]
    · by_cases hown : (charAt p 0 == playerChar st.currentPlayer) = true
      · have hf := activateAbility_frame st a p (row, col)
        simp [handleSquareClick, hab, hbg, hown, hf.2.2.1, hf.2.2.2.1]
      · simp [handleSquareClick, hab, hbg, hown]

/-- Witness for claim C2: from the initial position with the white factory
piece at (6,0) selected, the legal move to (4,0) bumps the turn counter and
toggles the faction. -/
theorem move_commit_turn_behavior_witness :
    (handleSquareClick moveSt 4 0).turnCount = moveSt.turnCount + 1 ∧
    (handleSquareClick moveSt 4 0).currentPlayer = togglePlayer moveSt.currentPlayer :=
  move_commit_turn_behavior.1 moveSt 6 0 "wr" 4 0 rfl rfl (by decide)

/-- Claim C3: from any state whose two pools are nonnegative, any sequence
of ability activations leaves both pools nonnegative: the guard only lets a
debit happen when the pool covers the cost. -/
theorem energy_pool_nonneg (st : GameState)
    (acts : List (String × String × (Nat × Nat)))
    (hw : 0 ≤ st.energyPoints.white) (hb : 0 ≤ st.energyPoints.black) :
    0 ≤ (applyAbilities st acts).energyPoints.white ∧
    0 ≤ (applyAbilities st acts).energyPoints.black := by
  induction acts generalizing st with
  | nil => exact ⟨hw, hb⟩
  | cons a rest ih =>
    have step := activateAbility_nonneg_step st a.1 a.2.1 a.2.2 hw hb
    simpa [applyAbilities] using ih (activateAbility st a.1 a.2.1 a.2.2) step.1 step.2

/-- Witness for claim C3: the initial pools stay nonnegative over a sample
two-activation sequence. -/
theorem energy_pool_nonneg_witness :
    0 ≤ (applyAbilities initState demoActs).energyPoints.white ∧
    0 ≤ (applyAbilities initState demoActs).energyPoints.black :=
  energy_pool_nonneg initState demoActs (by decide) (by decide)

/-- Claim C8: an ability name outside the cost table resolves to cost 1,
the debit of 1 still happens when the pool covers it, and the effect is a
no-op on the board and on all three status sets. -/
theorem unknown_ability_default (st : GameState) (ability piece : String)
    (pos : Nat × Nat)
    (hunk : abilityCosts.lookup ability = none)
    (hpool : 1 ≤ energyOf st.energyPoints st.currentPlayer) :
    getAbilityCost ability = 1 ∧
    (activateAbility st ability piece pos).board = st.board ∧
    (activateAbility st ability piece pos).hiddenPieces = st.hiddenPieces ∧
    (activateAbility st ability piece pos).taggedPieces = st.taggedPieces ∧
    (activateAbility st ability piece pos).mutatedPieces = st.mutatedPieces ∧
    energyOf (activateAbility st ability piece pos).energyPoints st.currentPlayer =
      energyOf st.energyPoints st.currentPlayer - 1 := by
  have hcost : getAbilityCost ability = 1 := by
    unfold getAbilityCost
    rw [hunk]
  have h1 : (ability == "stealth_mode") = false := by
    refine beq_eq_false_iff_ne.mpr ?_
    intro h
    rw [h] at hunk
    exact absurd hunk (by decide)
  have h2 : (ability == "mutation_burst") = false := by
    refine beq_eq_false_iff_ne.mpr ?_
    intro h
    rw [h] at hunk
    exact absurd hunk (by decide)
  have h3 : (ability == "tag_piece") = false := by
    refine beq_eq_false_iff_ne.mpr ?_
    intro h
    rw [h] at hunk
    exact absurd hunk (by decide)
  have hguard : energyOf st.energyPoints st.currentPlayer ≥ getAbilityCost ability := by
    rw [hcost]
    exact hpool
  refine ⟨hcost, ?_⟩
  unfold activateAbility
  dsimp only
  rw [if_pos hguard]
  simp [h1, h2, h3, energyOf_setEnergy, hcost]

/-- Witness for claim C8: basic_attack, a real piece ability missing from
the cost table, costs 1 and only debits energy from the initial state. -/
theorem unknown_ability_default_witness :
    getAbilityCost "basic_attack" = 1 ∧
    (activateAbility initState "basic_attack" "wp" (6, 0)).board = initState.board ∧
    (activateAbility initState "basic_attack" "wp" (6, 0)).hiddenPieces =
      initState.hiddenPieces ∧
    (activateAbility initState "basic_attack" "wp" (6, 0)).taggedPieces =
      initState.taggedPieces ∧
    (activateAbility initState "basic_attack" "wp" (6, 0)).mutatedPieces =
      initState.mutatedPieces ∧
    energyOf (activateAbility initState "basic_attack" "wp" (6, 0)).energyPoints
        initState.currentPlayer =
      energyOf initState.energyPoints initState.currentPlayer - 1 :=
  unknown_ability_default initState "basic_attack" "wp" (6, 0) (by decide) (by decide)

/-- Claim C9 as amended: every rejected action leaves the board, energy
pools, status sets, active faction and turn counter unchanged; a rejected
move clears the selected piece, and an insufficient-energy activation on an
owned piece clears the pending-ability selection, but an ability-armed
click on an empty or opposing-faction square is rejected with the
pending-ability selection left armed. -/
theorem rejection_semantics :
    (∀ st sr sc p row col, st.selectedAbility = none →
      st.selectedPiece = some (sr, sc, p) →
      isValidMove (sr, sc) (row, col) p = false →
      handleSquareClick st row col = { st with selectedPiece := none }) ∧
    (∀ st a row col, st.selectedAbility = some a →
      boardGet st.board row col = none →
      handleSquareClick st row col = st) ∧
    (∀ st a row col p, st.selectedAbility = some a →
      boardGet st.board row col = some p →
      (charAt p 0 == playerChar st.currentPlayer) = false →
      handleSquareClick st row col = st) ∧
    (∀ st a row col p, st.selectedAbility = some a →
      boardGet st.board row col = some p →
      (charAt p 0 == playerChar st.currentPlayer) = true →
      energyOf st.energyPoints st.currentPlayer < getAbilityCost a →
      handleSquareClick st row col = { st with selectedAbility := none }) ∧
    (∀ st row col p, st.selectedAbility = none → st.selectedPiece = none →
      boardGet st.board row col = some p →
      (if charAt p 0 = 'w' then Player.white else Player.black) ≠ st.currentPlayer →
      handleSquareClick st row col = st) ∧
    (∀ st a p pos, energyOf st.energyPoints st.currentPlayer < getAbilityCost a →
      activateAbility st a p pos = st) := by
  refine ⟨?_, ?_, ?_, ?_, ?_, ?_⟩
  · intro st sr sc p row col hab hsel hval
    simp [handleSquareClick, hab, hsel, hval]
  · intro st a row col hab hbg
    simp [handleSquareClick, hab, hbg]
  · intro st a row col p hab hbg hown
    simp [handleSquareClick, hab, hbg, hown]
  · intro st a row col p hab hbg hown hlow
    simp [handleSquareClick, hab, hbg, hown,
      activateAbility_insufficient st a p (row, col) hlow]
  · intro st row col p hab hsel hbg hcol
    simp [handleSquareClick, hab, hsel, hbg, hcol]
  · intro st a p pos hlow
    exact activateAbility_insufficient st a p pos hlow

/-- Witness for the amended claim C9: the white vector piece at (7,1) is
selected and the non-L-shaped destination (3,3) is rejected, clearing only
the selection. -/
theorem rejection_semantics_witness :
    handleSquareClick knightSt 3 3 = { knightSt with selectedPiece := none } :=
  rejection_semantics.1 knightSt 7 1 "wn" 3 3 rfl rfl (by decide)

/-- Claim C10 as amended: a null move of a core, complex, coordinator or
factory piece is geometrically legal and commits: the turn counter
increments, the faction toggles, and the piece is removed from the board,
because the origin-clearing write overwrites the destination write on the
shared square. -/
theorem null_move_pass (st : GameState) (r c : Nat) (p : String)
    (hab : st.selectedAbility = none) (hsel : st.selectedPiece = some (r, c, p))
    (hclass : charAt p 1 = 'k' ∨ charAt p 1 = 'q' ∨ charAt p 1 = 'b' ∨ charAt p 1 = 'r')
    (hr : r < st.board.length) (hc : c < (st.board.getD r []).length) :
    isValidMove (r, c) (r, c) p = true ∧
    (handleSquareClick st r c).turnCount = st.turnCount + 1 ∧
    (handleSquareClick st r c).currentPlayer = togglePlayer st.currentPlayer ∧
    boardGet (handleSquareClick st r c).board r c = none := by
  have hval : isValidMove (r, c) (r, c) p = true := by
    rcases hclass with h | h | h | h <;> simp [isValidMove, h]
  refine ⟨hval, ?_, ?_, ?_⟩ <;>
    simp [handleSquareClick, hab, hsel, hval,
      boardGet_double_set st.board r c (some p) hr hc]

/-- Witness for the amended claim C10: the selected white core piece at
(7,4) passes in place and vanishes from the board. -/
theorem null_move_pass_witness :
    isValidMove (7, 4) (7, 4) "wk" = true ∧
    (handleSquareClick kingSelectedSt 7 4).turnCount = kingSelectedSt.turnCount + 1 ∧
    (handleSquareClick kingSelectedSt 7 4).currentPlayer =
      togglePlayer kingSelectedSt.currentPlayer ∧
    boardGet (handleSquareClick kingSelectedSt 7 4).board 7 4 = none :=
  null_move_pass kingSelectedSt 7 4 "wk" rfl rfl (Or.inl rfl) (by decide) (by decide)
